import Mathlib

/-!
A verification development for the time-series storage core of the HydPy
sequence module (`hydpy/core/sequencetools.py`).  The Python code is embedded
shallowly: every double-precision value is an abstract 8-byte word (`FloatV`),
internal binary files are lists of such words with a byte-granular position,
RAM buffers are lists of per-step records, and each stateful Python method
becomes an explicit state-passing Lean function.
-/

/-- An 8-byte floating-point word, treated abstractly: the storage engine only
copies, packs and unpacks such words, so the embedding needs equality (the
"bit-identical" relation) but no arithmetic.  `nan` is the not-a-number
sentinel; `val z` stands for any other concrete bit pattern. -/
inductive FloatV where
  | nan : FloatV
  | val : Int → FloatV
deriving DecidableEq, Repr, Inhabited

/-- `Sequence.initvalue` (sequencetools.py, lines 456-464): with the global
`usedefaultvalues` option enabled, the `INIT` class attribute (or `0.` when it
is absent), otherwise `numpy.nan`. -/
def initvalue (usedefaultvalues : Bool) (INIT : Option FloatV) : FloatV :=
  if usedefaultvalues then INIT.getD (FloatV.val 0) else FloatV.nan

/-- Overwrite the elements of `l` starting at element offset `off` with `xs`
(the effect of a positioned binary-file write and of a numpy slice
assignment). -/
def writeAt (l : List FloatV) (off : Nat) (xs : List FloatV) : List FloatV :=
  l.take off ++ xs ++ l.drop (off + xs.length)

/-- The state the `FastAccess` object (sequencetools.py, lines 1503-1611)
keeps for one registered sequence: `_<name>_ndim`, the `_<name>_length_<i>`
attributes, the live value (flattened to row-major order), the two mode
flags, the RAM series `_<name>_array` (one flat record per time step), and
the internal binary file `_<name>_file` together with its handle position in
bytes. -/
structure SeqFA where
  ndim : Nat
  lengths : List Nat
  value : List FloatV
  diskflag : Bool
  ramflag : Bool
  array : List (List FloatV)
  file : List FloatV
  filepos : Nat
deriving DecidableEq, Repr

/-- A junk descriptor used only as the default of `List.headD`. -/
def dummySeq : SeqFA :=
  { ndim := 0, lengths := [], value := [], diskflag := false, ramflag := false,
    array := [], file := [], filepos := 0 }

/-- The `length_tot` computation of `FastAccess.loaddata` and
`FastAccess.savedata`: start from 1 and multiply in `_<name>_length_<i>` for
every dimension. -/
def lengthTot (ndim : Nat) (lengths : List Nat) : Nat :=
  (List.range ndim).foldl (fun t i => t * lengths.getD i 0) 1

/-- The seek position computed by `FastAccess.openfiles` (sequencetools.py,
lines 1532-1544): `position = 8*idx`, then `position *= length` once per
dimension. -/
def openfilesPos (idx : Nat) (ndim : Nat) (lengths : List Nat) : Nat :=
  (List.range ndim).foldl (fun p i => p * lengths.getD i 0) (8 * idx)

/-- `FastAccess.openfiles(idx)`: every sequence with an active disk flag gets
its (re)opened file handle positioned at `openfilesPos`. -/
def openfilesFA (idx : Nat) (fa : List SeqFA) : List SeqFA :=
  fa.map fun s =>
    if s.diskflag then { s with filepos := openfilesPos idx s.ndim s.lengths }
    else s

/-- The body of the per-sequence iteration of `FastAccess.loaddata`
(sequencetools.py, lines 1553-1581).  The disk branch reads `length_tot`
8-byte words at the current handle position and advances the handle; the RAM
branch copies row `idx` of the series array into the live value.  The second
component is the value of the Python variable `idx` after the iteration: the
inner loop `for idx in range(ndim)` of the disk branch overwrites the
function argument, which leaks into later iterations. -/
def loadone (idx : Nat) (s : SeqFA) : SeqFA × Nat :=
  if s.diskflag then
    let lt := lengthTot s.ndim s.lengths
    let vals := (s.file.drop (s.filepos / 8)).take lt
    ({ s with filepos := s.filepos + 8 * lt, value := vals },
     if s.ndim = 0 then idx else s.ndim - 1)
  else if s.ramflag then
    ({ s with value := s.array.getD idx [] }, idx)
  else (s, idx)

/-- The body of the per-sequence iteration of `FastAccess.savedata`
(sequencetools.py, lines 1583-1605).  The disk branch packs the flattened
live value and writes it at the current handle position, advancing the
handle; the RAM branch stores the live value as row `idx` of the series
array.  As in `loadone`, the second component is the leaked value of the
Python loop variable `idx`. -/
def saveone (idx : Nat) (s : SeqFA) : SeqFA × Nat :=
  if s.diskflag then
    ({ s with file := writeAt s.file (s.filepos / 8) s.value,
              filepos := s.filepos + 8 * lengthTot s.ndim s.lengths },
     if s.ndim = 0 then idx else s.ndim - 1)
  else if s.ramflag then
    ({ s with array := s.array.set idx s.value }, idx)
  else (s, idx)

/-- `FastAccess.loaddata(idx)` over all registered sequences, threading the
leaked loop variable through the iterations. -/
def loaddataFA (fa : List SeqFA) (idx : Nat) : List SeqFA :=
  (fa.foldl (fun acc s =>
    let r := loadone acc.2 s
    (acc.1 ++ [r.1], r.2)) (([] : List SeqFA), idx)).1

/-- `FastAccess.savedata(idx)` over all registered sequences, threading the
leaked loop variable through the iterations. -/
def savedataFA (fa : List SeqFA) (idx : Nat) : List SeqFA :=
  (fa.foldl (fun acc s =>
    let r := saveone acc.2 s
    (acc.1 ++ [r.1], r.2)) (([] : List SeqFA), idx)).1

/-- The concrete counterexample sequence for claim C1: a 0-dimensional
sequence in disk mode whose internal file holds the two zero records a
two-step run receives from `IOSequence.zero_int`, and whose live value has
been set to 5. -/
def cxSeq : SeqFA :=
  { ndim := 0, lengths := [], value := [FloatV.val 5], diskflag := true,
    ramflag := false, array := [], file := [FloatV.val 0, FloatV.val 0],
    filepos := 0 }

/-- Modelled from the spec: the time-grid triple "(first date, last date,
step size) discretizing a run" (spec, Glossary).  The date/step arithmetic
type itself lives outside this module (`hydpy/core/timetools.py` is not part
of the analysed sources); dates and step sizes are embedded as integer
counts of a common base unit (days in all examples). -/
structure Timegrid where
  firstdate : Int
  lastdate : Int
  stepsize : Int
deriving DecidableEq, Repr

/-- Modelled from the spec: indexing a time grid with a date ("compute the
two external-array indices corresponding to the simulation's first and last
date", spec 4.4) yields the signed number of steps between the grid's first
date and that date. -/
def Timegrid.dateindex (tg : Timegrid) (date : Int) : Int :=
  (date - tg.firstdate) / tg.stepsize

/-- Modelled from the spec: the number of steps of a time grid
(`len(pub.timegrids.init)` in `IOSequence.seriesshape`). -/
def Timegrid.steps (tg : Timegrid) : Nat :=
  ((tg.lastdate - tg.firstdate) / tg.stepsize).toNat

/-- Modelled from the spec: grid containment ("the external grid's coverage
is a superset of the simulation window", spec 4.4), used for the Python test
`pub.timegrids.init in timegrid_data`; step compatibility is checked
separately by `load_ext` before this test is reached. -/
def Timegrid.containsGrid (data init : Timegrid) : Bool :=
  decide (data.firstdate ≤ init.firstdate ∧ init.lastdate ≤ data.lastdate)

/-- The clamping loop of `IOSequence.adjust_short_series` (sequencetools.py,
lines 980-986): an index below zero becomes 0, an index above the external
series length becomes that length. -/
def clampIdx (len_ : Int) (idx : Int) : Int :=
  if idx < 0 then 0 else if idx ≤ len_ then idx else len_

/-- `IOSequence.adjust_short_series` (sequencetools.py, lines 902-991) for a
0-dimensional sequence: look up the simulation window's first and last date
in the external grid, allocate a full-length result filled with
`Sequence.initvalue`, clamp the two indices into the external series, and
copy the resulting slice of the external series into the matching position
of the result. -/
def adjust_short_series (init : Timegrid) (usedefaults : Bool)
    (INIT : Option FloatV) (tg : Timegrid) (values : List FloatV) :
    List FloatV :=
  let idx0 := tg.dateindex init.firstdate
  let idx1 := tg.dateindex init.lastdate
  let len_ : Int := values.length
  let jdx0 := clampIdx len_ idx0
  let jdx1 := clampIdx len_ idx1
  let valcopy := (values.drop jdx0.toNat).take (jdx1 - jdx0).toNat
  let zdx1 := (max (-idx0) 0).toNat
  writeAt (List.replicate init.steps (initvalue usedefaults INIT)) zdx1 valcopy

/-- The error taxonomy of `IOSequence.load_ext` and `IOSequence._getseries`. -/
inductive LoadErr where
  | shapeMismatch : LoadErr
  | stepsizeMismatch : LoadErr
  | coverageError : LoadErr
  | storageUnavailable : LoadErr
deriving DecidableEq, Repr

/-- The final dispatch of `IOSequence.load_ext` (sequencetools.py, lines
892-900): store the loaded series through the disk file or the RAM buffer,
or fail when neither mode is active. -/
def store_result (diskflag ramflag : Bool) (values : List FloatV) :
    Except LoadErr (List FloatV) :=
  if diskflag then Except.ok values
  else if ramflag then Except.ok values
  else Except.error LoadErr.storageUnavailable

/-- `IOSequence.load_ext` (sequencetools.py, lines 857-900) for a
0-dimensional sequence: check the value shape against the sequence shape,
then unconditionally check the external grid's step size against the
simulation step size, then either slice the covering external series or —
only with `checkseries` disabled — align a short series via
`adjust_short_series`, and finally store the result. -/
def load_ext (init : Timegrid) (checkseries usedefaults : Bool)
    (INIT : Option FloatV) (seqShape dataShape : List Nat) (tg : Timegrid)
    (values : List FloatV) (diskflag ramflag : Bool) :
    Except LoadErr (List FloatV) :=
  if seqShape ≠ dataShape then Except.error LoadErr.shapeMismatch
  else if init.stepsize ≠ tg.stepsize then
    Except.error LoadErr.stepsizeMismatch
  else if ¬ tg.containsGrid init then
    if checkseries then Except.error LoadErr.coverageError
    else store_result diskflag ramflag
      (adjust_short_series init usedefaults INIT tg values)
  else
    store_result diskflag ramflag
      ((values.drop (tg.dateindex init.firstdate).toNat).take
        (tg.dateindex init.lastdate - tg.dateindex init.firstdate).toNat)

/-- The five-day simulation grid of the `adjust_short_series` doctest:
2000-01-10 up to 2000-01-15, daily steps (dates as day numbers of
January 2000). -/
def tgInit5 : Timegrid := { firstdate := 10, lastdate := 15, stepsize := 1 }

/-- The persistence state of one `IOSequence`: the two mode flags, the RAM
series buffer `_<name>_array` (absent after release), the internal binary
file's content (absent after deletion), and the series metadata `nsteps`
(length of the initialization time grid) and `reclen` (number of words per
record, the product of the per-axis lengths). -/
structure IOState where
  ramflag : Bool
  diskflag : Bool
  array : Option (List (List FloatV))
  intfile : Option (List FloatV)
  nsteps : Nat
  reclen : Nat
deriving DecidableEq, Repr

/-- The errors of the `IOSequence` series machinery: requesting the series
with neither mode active (`IOSequence._getseries`, sequencetools.py, lines
826-835), reading a released RAM buffer, or reading a deleted internal
file. -/
inductive StorageErr where
  | storageUnavailable : StorageErr
  | ramArrayUnset : StorageErr
  | missingIntFile : StorageErr
deriving DecidableEq, Repr

/-- The `reshape` of `IOSequence._load_int`: cut a flat internal file into
`nsteps` records of `rec` words each. -/
def chunkRecords : Nat → Nat → List FloatV → List (List FloatV)
  | 0, _, _ => []
  | t + 1, r, l => l.take r :: chunkRecords t r (l.drop r)

/-- `IOSequence._getseries` (sequencetools.py, lines 826-835): with the disk
flag active, read the whole internal file (`IOSequence._load_int`); with the
RAM flag active, return the buffer; otherwise fail. -/
def getseries (s : IOState) : Except StorageErr (List (List FloatV)) :=
  if s.diskflag then
    match s.intfile with
    | some f => Except.ok (chunkRecords s.nsteps s.reclen f)
    | none => Except.error StorageErr.missingIntFile
  else if s.ramflag then
    match s.array with
    | some a => Except.ok a
    | none => Except.error StorageErr.ramArrayUnset
  else Except.error StorageErr.storageUnavailable

/-- `IOSequence._delseries` (sequencetools.py, lines 849-853): delete the
internal file when the disk flag is active, otherwise release the RAM
buffer when the RAM flag is active. -/
def delseries (s : IOState) : IOState :=
  if s.diskflag then { s with intfile := none }
  else if s.ramflag then { s with array := none }
  else s

/-- `IOSequence.deactivate_ram` (sequencetools.py, lines 1080-1084). -/
def deactivate_ram (s : IOState) : IOState :=
  if s.ramflag then { delseries s with ramflag := false } else s

/-- `IOSequence.deactivate_disk` (sequencetools.py, lines 1063-1067). -/
def deactivate_disk (s : IOState) : IOState :=
  if s.diskflag then { delseries s with diskflag := false } else s

/-- The all-zero series `IOSequence.zero_int` builds with
`numpy.zeros(self.seriesshape)`. -/
def zeroRecords (s : IOState) : List (List FloatV) :=
  List.replicate s.nsteps (List.replicate s.reclen (FloatV.val 0))

/-- `IOSequence.activate_ram` (sequencetools.py, lines 1069-1078) for a
computed (non-input) model sequence: deactivate the disk mode, set the RAM
flag, and initialize the buffer with zeros via `IOSequence.zero_int`. -/
def activate_ram (s : IOState) : IOState :=
  let s2 := { deactivate_disk s with ramflag := true }
  { s2 with array := some (zeroRecords s2) }

/-- `IOSequence.activate_disk` (sequencetools.py, lines 1052-1061) for a
computed (non-input) model sequence: deactivate the RAM mode, set the disk
flag, and write an all-zero internal file via `IOSequence.zero_int`. -/
def activate_disk (s : IOState) : IOState :=
  let s2 := { deactivate_ram s with diskflag := true }
  { s2 with intfile := some (List.flatten (zeroRecords s2)) }

/-- `IOSequence.ram2disk` (sequencetools.py, lines 1094-1100): read the
current series, deactivate the RAM mode, set the disk flag and write the
series to the internal file (`IOSequence._save_int`).  A failing series read
raises before any mutation. -/
def ram2disk (s : IOState) : Except StorageErr IOState :=
  match getseries s with
  | Except.error e => Except.error e
  | Except.ok v =>
      let s2 := { deactivate_ram s with diskflag := true }
      Except.ok { s2 with intfile := some (List.flatten v) }

/-- `IOSequence.disk2ram` (sequencetools.py, lines 1086-1092): read the
current series, deactivate the disk mode, set the RAM flag and store the
series in the buffer (`IOSequence._setarray`). -/
def disk2ram (s : IOState) : Except StorageErr IOState :=
  match getseries s with
  | Except.error e => Except.error e
  | Except.ok v =>
      let s2 := { deactivate_disk s with ramflag := true }
      Except.ok { s2 with array := some v }

/-- The six mode-transition operations of an `IOSequence`. -/
inductive ModeOp where
  | activateRam : ModeOp
  | activateDisk : ModeOp
  | deactivateRam : ModeOp
  | deactivateDisk : ModeOp
  | ramToDisk : ModeOp
  | diskToRam : ModeOp
deriving DecidableEq, Repr

/-- Dispatch one mode-transition operation. -/
def applyOp : ModeOp → IOState → Except StorageErr IOState
  | ModeOp.activateRam, s => Except.ok (activate_ram s)
  | ModeOp.activateDisk, s => Except.ok (activate_disk s)
  | ModeOp.deactivateRam, s => Except.ok (deactivate_ram s)
  | ModeOp.deactivateDisk, s => Except.ok (deactivate_disk s)
  | ModeOp.ramToDisk, s => ram2disk s
  | ModeOp.diskToRam, s => disk2ram s

/-- Run one operation; a raising operation leaves the Python object
unchanged, since `ram2disk`/`disk2ram` read the series before mutating. -/
def runOp (s : IOState) (op : ModeOp) : IOState :=
  match applyOp op s with
  | Except.ok t => t
  | Except.error _ => s

/-- Run a whole sequence of mode-transition operations. -/
def runOps (s : IOState) (ops : List ModeOp) : IOState :=
  ops.foldl runOp s

/-- The heap of a model's state-sequence storage: numpy arrays are
heap-allocated cells addressed by index, so that the aliasing behaviour of
`StateSequence.new2old` is observable. -/
structure StateMem where
  heap : List (List FloatV)
  newref : Nat
  oldref : Nat
deriving DecidableEq, Repr

/-- The contents of the array the `new` slot points to. -/
def StateMem.readNew (st : StateMem) : List FloatV :=
  st.heap.getD st.newref []

/-- The contents of the array the `old` slot points to. -/
def StateMem.readOld (st : StateMem) : List FloatV :=
  st.heap.getD st.oldref []

/-- `StateSequence._setshape` (sequencetools.py, lines 1220-1225) for an
array-shaped state of flattened size `n`: `Sequence._setshape` allocates a
fresh array filled with `Sequence.initvalue` and binds `new` to it, then
`fastaccess_old` receives `self.new.copy()` — a second fresh allocation. -/
def state_setshape (n : Nat) (iv : FloatV) (st : StateMem) : StateMem :=
  let heap1 := st.heap ++ [List.replicate n iv]
  let nref := st.heap.length
  { heap := heap1 ++ [heap1.getD nref []], newref := nref,
    oldref := heap1.length }

/-- `StateSequence.new2old` (sequencetools.py, lines 1282-1286) for an
array-shaped state: `self.old[:] = self.new[:]` copies the contents of the
`new` array into the `old` array in place, leaving both references as they
are. -/
def new2old (st : StateMem) : StateMem :=
  { st with heap := st.heap.set st.oldref (st.heap.getD st.newref []) }

/-- An in-place element write `seq.new[i] = x` into the `new` array. -/
def mutateNewItem (st : StateMem) (i : Nat) (x : FloatV) : StateMem :=
  { st with heap :=
      st.heap.set st.newref ((st.heap.getD st.newref []).set i x) }

/-- A full assignment `seq.new = v`: `Sequence._setvalue` builds a fresh
array with `numpy.full` and rebinds the `new` slot to it. -/
def setNewFull (st : StateMem) (v : List FloatV) : StateMem :=
  { heap := st.heap ++ [v], newref := st.heap.length, oldref := st.oldref }

/-- The two scalar slots of a 0-dimensional state sequence: Python floats
are immutable, so the slots hold plain values. -/
structure StateMem0 where
  oldval : FloatV
  newval : FloatV
deriving DecidableEq, Repr

/-- `StateSequence.new2old` for a 0-dimensional state: `self.old =
self.new`. -/
def new2old0 (s : StateMem0) : StateMem0 :=
  { s with oldval := s.newval }

/-- Assigning a new scalar value to the `new` slot. -/
def setNew0 (s : StateMem0) (v : FloatV) : StateMem0 :=
  { s with newval := v }

/-- The exception relevant to mode activation: Python's `IOError`, raised
when the backing external data file cannot be opened or read. -/
inductive PyExc where
  | ioError : PyExc
deriving DecidableEq, Repr

/-- The persistence state of a node sequence or input sequence, abstracting
the stored series to one list. -/
structure NodeSeq where
  ramflag : Bool
  diskflag : Bool
  series : Option (List FloatV)
deriving DecidableEq, Repr

/-- `IOSequence.activate_ram` (sequencetools.py, lines 1069-1078): after
deactivating the disk mode and setting the RAM flag, a sequence with
`use_ext` semantics (an `InputSequence`, or a `NodeSequence` whose `use_ext`
attribute is set) reads the backing external file via `load_ext` — which
raises `IOError` when that file cannot be read, after the flag has already
been set — while any other sequence fills the series with zeros. -/
def ioseq_activate_ram (useExt extOk : Bool) (extData zeroData : List FloatV)
    (s : NodeSeq) : NodeSeq × Option PyExc :=
  let s2 : NodeSeq := { s with diskflag := false, ramflag := true }
  if useExt then
    if extOk then ({ s2 with series := some extData }, none)
    else (s2, some PyExc.ioError)
  else ({ s2 with series := some zeroData }, none)

/-- `IOSequence.activate_disk` (sequencetools.py, lines 1052-1061), the
disk-mode counterpart of `ioseq_activate_ram`. -/
def ioseq_activate_disk (useExt extOk : Bool) (extData zeroData : List FloatV)
    (s : NodeSeq) : NodeSeq × Option PyExc :=
  let s2 : NodeSeq := { s with ramflag := false, diskflag := true }
  if useExt then
    if extOk then ({ s2 with series := some extData }, none)
    else (s2, some PyExc.ioError)
  else ({ s2 with series := some zeroData }, none)

/-- The `except IOError` wrapper shared by `Sim.activate_ram`,
`Sim.activate_disk`, `Obs.activate_ram` and `Obs.activate_disk`
(sequencetools.py, lines 1427-1481): when the inner activation raises
`IOError`, reset the given mode flag to `False` and — only under the
respective global warn option — emit a warning; no exception escapes.  The
result is the final state, whether a warning was emitted, and whether an
exception propagates (always `none` here). -/
def node_activate_catch (warnOpt : Bool) (resetDisk : Bool)
    (inner : NodeSeq × Option PyExc) : NodeSeq × Bool × Option PyExc :=
  match inner with
  | (t, none) => (t, false, none)
  | (t, some PyExc.ioError) =>
      if resetDisk then ({ t with diskflag := false }, warnOpt, none)
      else ({ t with ramflag := false }, warnOpt, none)

/-- `Obs.activate_ram` (sequencetools.py, lines 1471-1481): `Obs` has
`use_ext = True`, and the warn option is `warnmissingobsfile`. -/
def obs_activate_ram (warnmissingobsfile extOk : Bool)
    (extData : List FloatV) (s : NodeSeq) : NodeSeq × Bool × Option PyExc :=
  node_activate_catch warnmissingobsfile false
    (ioseq_activate_ram true extOk extData [] s)

/-- `Obs.activate_disk` (sequencetools.py, lines 1459-1469). -/
def obs_activate_disk (warnmissingobsfile extOk : Bool)
    (extData : List FloatV) (s : NodeSeq) : NodeSeq × Bool × Option PyExc :=
  node_activate_catch warnmissingobsfile true
    (ioseq_activate_disk true extOk extData [] s)

/-- `Sim.activate_ram` (sequencetools.py, lines 1439-1449): `Sim` has
`use_ext = False`, and the warn option is `warnmissingsimfile`. -/
def sim_activate_ram (warnmissingsimfile extOk : Bool)
    (zeroData : List FloatV) (s : NodeSeq) : NodeSeq × Bool × Option PyExc :=
  node_activate_catch warnmissingsimfile false
    (ioseq_activate_ram false extOk [] zeroData s)

/-- `InputSequence.activate_ram`: an `InputSequence` inherits
`IOSequence.activate_ram` unchanged, so it always takes the `load_ext`
branch and has no `except IOError` wrapper — the exception propagates. -/
def input_activate_ram (extOk : Bool) (extData : List FloatV) (s : NodeSeq) :
    NodeSeq × Option PyExc :=
  ioseq_activate_ram true extOk extData [] s

/-- The errors of `LinkSequence` value access: Python's
`NotImplementedError`. -/
inductive LinkErr where
  | notImplementedError : LinkErr
deriving DecidableEq, Repr

/-- A link sequence, identified by its dimensionality (0 or 1). -/
structure LinkSeq where
  ndim : Nat
deriving DecidableEq, Repr

/-- `LinkSequence._getvalue` (sequencetools.py, lines 1335-1339): reading
the `value`/`values` attribute unconditionally raises
`NotImplementedError`. -/
def linkseq_getvalue (s : LinkSeq) : Except LinkErr FloatV :=
  Except.error LinkErr.notImplementedError

/-- `LinkSequence._setvalue` (sequencetools.py, lines 1341-1348): assigning
the `value`/`values` attribute unconditionally raises
`NotImplementedError`. -/
def linkseq_setvalue (s : LinkSeq) (v : FloatV) : Except LinkErr LinkSeq :=
  Except.error LinkErr.notImplementedError

/-- The error of `Sequence._setshape` on a 0-dimensional sequence given a
non-empty shape tuple. -/
inductive ShapeErr where
  | zeroDimNonEmptyShape : ShapeErr
deriving DecidableEq, Repr

/-- The 0-dimensional branch of `Sequence._setshape` (sequencetools.py,
lines 554-578): a non-empty shape tuple is a fatal error; the empty tuple
executes `self.value = 0.`, ignoring both the current value `cur` and the
`usedefaultvalues`/`INIT` configuration (which only the n-dimensional branch
consults through `Sequence.initvalue`). -/
def setshape0 (usedefaultvalues : Bool) (INIT : Option FloatV) (cur : FloatV)
    (shape : List Nat) : Except ShapeErr FloatV :=
  if shape ≠ [] then Except.error ShapeErr.zeroDimNonEmptyShape
  else Except.ok (FloatV.val 0)

theorem getD_append_lt {α : Type} (a b : List α) (i : Nat) (d : α)
    (h : i < a.length) : (a ++ b).getD i d = a.getD i d := by
  simp [List.getD_eq_getElem?_getD, List.getElem?_append_left h]

theorem getD_append_ge {α : Type} (a b : List α) (i : Nat) (d : α)
    (h : a.length ≤ i) : (a ++ b).getD i d = b.getD (i - a.length) d := by
  simp [List.getD_eq_getElem?_getD, List.getElem?_append_right h]

theorem getD_replicate_lt {α : Type} (n i : Nat) (x d : α) (h : i < n) :
    (List.replicate n x).getD i d = x := by
  simp [List.getD_eq_getElem?_getD, List.getElem?_replicate, h]

theorem getD_take {α : Type} (l : List α) (n i : Nat) (d : α) :
    (l.take n).getD i d = if i < n then l.getD i d else d := by
  rcases Nat.lt_or_ge i n with h | h
  · simp [List.getD_eq_getElem?_getD, List.getElem?_take, h]
  · have : (l.take n).length ≤ i := le_trans (by simpa using Nat.min_le_left n l.length) h
    simp [List.getD_eq_getElem?_getD, List.getElem?_eq_none this, Nat.not_lt.2 h]

theorem getD_drop {α : Type} (l : List α) (n i : Nat) (d : α) :
    (l.drop n).getD i d = l.getD (n + i) d := by
  simp [List.getD_eq_getElem?_getD, List.getElem?_drop]

theorem getD_set_ne {α : Type} (l : List α) (i j : Nat) (a d : α)
    (h : i ≠ j) : (l.set i a).getD j d = l.getD j d := by
  simp [List.getD_eq_getElem?_getD, List.getElem?_set_ne h]

theorem getD_set_self {α : Type} (l : List α) (i : Nat) (a d : α)
    (h : i < l.length) : (l.set i a).getD i d = a := by
  simp [List.getD_eq_getElem?_getD, List.getElem?_set_self, h]

theorem take_len_append {α : Type} (a b : List α) (n : Nat)
    (h : a.length = n) : (a ++ b).take n = a := by
  subst h; exact List.take_left a b

theorem drop_len_append {α : Type} (a b : List α) (n : Nat)
    (h : a.length = n) : (a ++ b).drop n = b := by
  subst h; exact List.drop_left a b

theorem foldl_range_mul (l : List Nat) (a : Nat) :
    (List.range l.length).foldl (fun p i => p * l.getD i 0) a = a * l.prod := by
  induction l generalizing a with
  | nil => simp
  | cons x xs ih =>
      rw [List.length_cons, List.range_succ_eq_map, List.foldl_cons,
        List.foldl_map]
      simpa [Nat.mul_assoc, Nat.mul_comm, Nat.mul_left_comm] using ih (a * x)

theorem chunk_flatten (t r : Nat) (v : List (List FloatV))
    (hlen : v.length = t) (hrec : ∀ x ∈ v, x.length = r) :
    chunkRecords t r v.flatten = v := by
  induction v generalizing t with
  | nil => simp at hlen; subst hlen; simp [chunkRecords]
  | cons x xs ih =>
      cases t with
      | zero => simp at hlen
      | succ t =>
          have hx : x.length = r := hrec x (by simp)
          simp only [List.flatten_cons, chunkRecords,
            take_len_append x xs.flatten r hx,
            drop_len_append x xs.flatten r hx]
          rw [ih t (by simpa using hlen) (fun y hy => hrec y (by simp [hy]))]

theorem flatten_chunk (t r : Nat) (f : List FloatV)
    (hlen : f.length = t * r) : (chunkRecords t r f).flatten = f := by
  induction t generalizing f with
  | zero =>
      simp only [Nat.zero_mul, List.length_eq_zero] at hlen
      simp [chunkRecords, hlen]
  | succ t ih =>
      simp only [chunkRecords, List.flatten_cons]
      rw [ih (f.drop r) (by simp only [List.length_drop, hlen, Nat.succ_mul]; omega)]
      exact List.take_append_drop r f

theorem savedataFA_singleton (s : SeqFA) (idx : Nat) :
    savedataFA [s] idx = [(saveone idx s).1] := by
  simp [savedataFA]

theorem loaddataFA_singleton (s : SeqFA) (idx : Nat) :
    loaddataFA [s] idx = [(loadone idx s).1] := by
  simp [loaddataFA]

theorem openfilesFA_singleton (idx : Nat) (s : SeqFA) (h : s.diskflag = true) :
    openfilesFA idx [s] = [{ s with filepos := openfilesPos idx s.ndim s.lengths }] := by
  simp [openfilesFA, h]

/-- Claim C2: `FastAccess.openfiles(idx)` seeks to the byte offset
`idx * recordSize` with `recordSize = 8 * (product of the per-axis
lengths)` (8 for scalars): the loop multiplies the start value `8 * idx` by
every axis length exactly once, so the position equals
`idx * 8 * (product of the lengths)` and no length enters twice. -/
theorem claim_C2_openfiles_position :
    (∀ (idx ndim : Nat) (lengths : List Nat), lengths.length = ndim →
      openfilesPos idx ndim lengths = idx * (8 * lengths.prod))
  ∧ (∀ (idx : Nat) (s : SeqFA), s.diskflag = true →
      s.lengths.length = s.ndim →
      ((openfilesFA idx [s]).headD dummySeq).filepos =
        idx * (8 * s.lengths.prod)) := by
  constructor
  · intro idx ndim lengths h
    rw [← h]; unfold openfilesPos; rw [foldl_range_mul]; ring
  · intro idx s hd hl
    rw [openfilesFA_singleton idx s hd]
    show openfilesPos idx s.ndim s.lengths = _
    rw [← hl]; unfold openfilesPos; rw [foldl_range_mul]; ring

/-- Witness for claim C2 at a concrete 2-dimensional sequence. -/
theorem claim_C2_openfiles_position_witness :
    openfilesPos 3 2 [4, 5] = 3 * (8 * ([4, 5] : List Nat).prod) :=
  claim_C2_openfiles_position.1 3 2 [4, 5] rfl

/-- Claim C4: in `IOSequence.load_ext`, a step-size mismatch between the
external file's grid and the simulation grid is fatal for every setting of
the `checkseries` option (and of the persistence mode): the step-size check
is decided before, and independently of, the coverage/tolerance branch. -/
theorem claim_C4_stepsize_always_fatal :
    ∀ (init tg : Timegrid) (checkseries usedefaults diskflag ramflag : Bool)
      (INIT : Option FloatV) (shape : List Nat) (values : List FloatV),
      init.stepsize ≠ tg.stepsize →
      load_ext init checkseries usedefaults INIT shape shape tg values
        diskflag ramflag = Except.error LoadErr.stepsizeMismatch := by
  intro init tg checkseries usedefaults diskflag ramflag INIT shape values h
  simp [load_ext, h]

/-- Witness for claim C4: a daily simulation grid against a two-day
external grid, with the tolerance option enabled. -/
theorem claim_C4_stepsize_always_fatal_witness :
    load_ext tgInit5 false true none [] [] 
      { firstdate := 10, lastdate := 16, stepsize := 2 }
      (List.replicate 3 (FloatV.val 1)) false true =
      Except.error LoadErr.stepsizeMismatch :=
  claim_C4_stepsize_always_fatal tgInit5
    { firstdate := 10, lastdate := 16, stepsize := 2 } false true false true
    none [] (List.replicate 3 (FloatV.val 1)) (by decide)

/-- Claim C9: reading or assigning the `value`/`values` attribute of a
`LinkSequence` always raises `NotImplementedError`, for 0- and
1-dimensional link sequences alike. -/
theorem claim_C9_link_value_not_implemented :
    ∀ (s : LinkSeq) (v : FloatV),
      linkseq_getvalue s = Except.error LinkErr.notImplementedError ∧
      linkseq_setvalue s v = Except.error LinkErr.notImplementedError :=
  fun _ _ => ⟨rfl, rfl⟩

/-- Claim C10: assigning the empty tuple to the shape of a 0-dimensional
sequence succeeds and overwrites the current value with 0.0, whatever value
was held before and regardless of the `usedefaultvalues` option; the
configured initial value (`numpy.nan` with the option disabled) is not
used. -/
theorem claim_C10_setshape_zero_dim :
    (∀ (ud : Bool) (INIT : Option FloatV) (cur : FloatV),
      setshape0 ud INIT cur [] = Except.ok (FloatV.val 0))
  ∧ initvalue false none ≠ FloatV.val 0 :=
  ⟨fun _ _ _ => rfl, by decide⟩

/-- Counterexample to claim C1: for a 0-dimensional sequence with the disk
flag active and its file opened at step 0, writing the live value 5 with
`savedata(0)` and then calling `loaddata(0)` does not restore the written
value — the handle advanced past the written record, so `loaddata` reads
the following record (0) instead. -/
theorem claim_C1_counterexample :
    ((loaddataFA (savedataFA (openfilesFA 0 [cxSeq]) 0) 0).headD
        dummySeq).value ≠ cxSeq.value := by decide

/-- Claim C1 as amended: with the RAM flag active, `savedata(i)` followed
by `loaddata(i)` restores the live value bit-identically for every shape;
with the disk flag active the written record is restored only if the file
handle is repositioned (`openfiles(i)`) between `savedata(i)` and
`loaddata(i)`, because both calls read/write at the current handle position
and advance it. -/
theorem claim_C1_amended_roundtrip :
    (∀ (s : SeqFA) (idx : Nat), s.ramflag = true → s.diskflag = false →
      idx < s.array.length →
      ((loaddataFA (savedataFA [s] idx) idx).headD dummySeq).value = s.value)
  ∧ (∀ (s : SeqFA) (idx : Nat), s.diskflag = true →
      s.lengths.length = s.ndim → s.value.length = s.lengths.prod →
      idx * s.lengths.prod ≤ s.file.length →
      ((loaddataFA (openfilesFA idx (savedataFA (openfilesFA idx [s]) idx))
          idx).headD dummySeq).value = s.value) := by
  constructor
  · intro s idx hr hd hlen
    rw [savedataFA_singleton, loaddataFA_singleton]
    simp only [saveone, loadone, hr, hd, Bool.false_eq_true, if_false, if_true,
      List.headD_cons]
    exact getD_set_self _ _ _ _ hlen
  · intro s idx hd hl hv hoff
    have hlt : lengthTot s.ndim s.lengths = s.lengths.prod := by
      rw [← hl]; unfold lengthTot; rw [foldl_range_mul]; ring
    have hP : openfilesPos idx s.ndim s.lengths = 8 * (idx * s.lengths.prod) := by
      rw [← hl]; unfold openfilesPos; rw [foldl_range_mul]; ring
    have hdiv : openfilesPos idx s.ndim s.lengths / 8 = idx * s.lengths.prod := by
      rw [hP]; omega
    rw [openfilesFA_singleton idx s hd, savedataFA_singleton]
    simp only [saveone, hd, if_true]
    rw [openfilesFA_singleton _ _ rfl, loaddataFA_singleton]
    simp only [loadone, hd, if_true, List.headD_cons]
    rw [hlt, hdiv, writeAt, List.append_assoc]
    rw [drop_len_append _ _ _ (by rw [List.length_take]; omega)]
    exact take_len_append _ _ _ hv

/-- Witness for the amended claim C1: a RAM-mode sequence at step 1 of a
two-step run, and a disk-mode 1-dimensional sequence of length 2 at step 1
of a two-step run with repositioning between save and load. -/
theorem claim_C1_amended_roundtrip_witness :
    (((loaddataFA (savedataFA
        [{ ndim := 0, lengths := [], value := [FloatV.val 7], diskflag := false,
           ramflag := true, array := [[FloatV.val 0], [FloatV.val 0]],
           file := [], filepos := 0 }] 1) 1).headD dummySeq).value =
      [FloatV.val 7])
  ∧ (((loaddataFA (openfilesFA 1 (savedataFA (openfilesFA 1
        [{ ndim := 1, lengths := [2], value := [FloatV.val 3, FloatV.val 4],
           diskflag := true, ramflag := false, array := [],
           file := [FloatV.val 0, FloatV.val 0, FloatV.val 0, FloatV.val 0],
           filepos := 0 }]) 1)) 1).headD dummySeq).value =
      [FloatV.val 3, FloatV.val 4]) :=
  ⟨claim_C1_amended_roundtrip.1
      { ndim := 0, lengths := [], value := [FloatV.val 7], diskflag := false,
        ramflag := true, array := [[FloatV.val 0], [FloatV.val 0]],
        file := [], filepos := 0 } 1 rfl rfl (by decide),
   claim_C1_amended_roundtrip.2
      { ndim := 1, lengths := [2], value := [FloatV.val 3, FloatV.val 4],
        diskflag := true, ramflag := false, array := [],
        file := [FloatV.val 0, FloatV.val 0, FloatV.val 0, FloatV.val 0],
        filepos := 0 } 1 rfl rfl (by decide) (by decide)⟩

theorem activate_ram_flags (s : IOState) :
    (activate_ram s).ramflag = true ∧ (activate_ram s).diskflag = false := by
  unfold activate_ram deactivate_disk delseries
  split_ifs <;> simp_all

theorem activate_disk_flags (s : IOState) :
    (activate_disk s).diskflag = true ∧ (activate_disk s).ramflag = false := by
  unfold activate_disk deactivate_ram delseries
  split_ifs <;> simp_all

theorem deactivate_ram_flags (s : IOState) :
    (deactivate_ram s).ramflag = false ∨ deactivate_ram s = s := by
  unfold deactivate_ram delseries
  split_ifs <;> simp_all

theorem deactivate_disk_flags (s : IOState) :
    (deactivate_disk s).diskflag = false ∨ deactivate_disk s = s := by
  unfold deactivate_disk delseries
  split_ifs <;> simp_all

theorem ram2disk_flags (s t : IOState) (h : ram2disk s = Except.ok t) :
    t.diskflag = true ∧ t.ramflag = false := by
  unfold ram2disk at h
  cases hg : getseries s with
  | error e => rw [hg] at h; simp at h
  | ok v =>
      rw [hg] at h
      simp only [Except.ok.injEq] at h
      subst h
      unfold deactivate_ram delseries
      split_ifs <;> simp_all

theorem disk2ram_flags (s t : IOState) (h : disk2ram s = Except.ok t) :
    t.ramflag = true ∧ t.diskflag = false := by
  unfold disk2ram at h
  cases hg : getseries s with
  | error e => rw [hg] at h; simp at h
  | ok v =>
      rw [hg] at h
      simp only [Except.ok.injEq] at h
      subst h
      unfold deactivate_disk delseries
      split_ifs <;> simp_all

theorem runOp_exclusive (op : ModeOp) (s : IOState)
    (h : ¬(s.ramflag = true ∧ s.diskflag = true)) :
    ¬((runOp s op).ramflag = true ∧ (runOp s op).diskflag = true) := by
  cases op with
  | activateRam =>
      have := activate_ram_flags s
      simp only [runOp, applyOp]
      simp [this.2]
  | activateDisk =>
      have := activate_disk_flags s
      simp only [runOp, applyOp]
      simp [this.2]
  | deactivateRam =>
      rcases deactivate_ram_flags s with hf | hf <;>
        simp only [runOp, applyOp] <;> simp [hf, h]
  | deactivateDisk =>
      rcases deactivate_disk_flags s with hf | hf <;>
        simp only [runOp, applyOp] <;> simp [hf, h]
  | ramToDisk =>
      simp only [runOp, applyOp]
      cases hg : ram2disk s with
      | error e => simpa [hg] using h
      | ok t => have := ram2disk_flags s t hg; simp [hg, this.2]
  | diskToRam =>
      simp only [runOp, applyOp]
      cases hg : disk2ram s with
      | error e => simpa [hg] using h
      | ok t => have := disk2ram_flags s t hg; simp [hg, this.2]

/-- A fresh persistence state for a two-step run of a scalar sequence, as
`Sequence.connect` leaves it: both flags false, no buffer, no file. -/
def freshIO : IOState :=
  { ramflag := false, diskflag := false, array := none, intfile := none,
    nsteps := 2, reclen := 1 }

/-- A sample operation sequence exercising every mode transition. -/
def sampleOps : List ModeOp :=
  [ModeOp.activateRam, ModeOp.ramToDisk, ModeOp.activateDisk,
   ModeOp.diskToRam, ModeOp.deactivateRam, ModeOp.activateDisk,
   ModeOp.deactivateDisk]

/-- Claim C5: starting from a fresh sequence, no sequence of the six
mode-transition operations ever makes the RAM flag and the disk flag true
simultaneously; and whenever both flags are false, requesting the full
series fails with the storage-unavailable error. -/
theorem claim_C5_mode_exclusivity :
    (∀ (s0 : IOState) (ops : List ModeOp),
      s0.ramflag = false → s0.diskflag = false →
      ¬((runOps s0 ops).ramflag = true ∧ (runOps s0 ops).diskflag = true))
  ∧ (∀ u : IOState, u.ramflag = false → u.diskflag = false →
      getseries u = Except.error StorageErr.storageUnavailable) := by
  constructor
  · intro s0 ops h1 h2
    have h0 : ¬(s0.ramflag = true ∧ s0.diskflag = true) := by simp [h1]
    clear h1 h2
    induction ops generalizing s0 with
    | nil => simpa [runOps] using h0
    | cons op rest ih =>
        show ¬((runOps (runOp s0 op) rest).ramflag = true ∧
          (runOps (runOp s0 op) rest).diskflag = true)
        exact ih _ (runOp_exclusive op s0 h0)
  · intro u h1 h2
    simp [getseries, h1, h2]

/-- Witness for claim C5 at a fresh state and a sample operation list. -/
theorem claim_C5_mode_exclusivity_witness :
    (¬((runOps freshIO sampleOps).ramflag = true ∧
        (runOps freshIO sampleOps).diskflag = true))
  ∧ getseries freshIO = Except.error StorageErr.storageUnavailable :=
  ⟨claim_C5_mode_exclusivity.1 freshIO sampleOps rfl rfl,
   claim_C5_mode_exclusivity.2 freshIO rfl rfl⟩

/-- Claim C6: for a sequence with an established in-run series, `ram2disk`
followed by `disk2ram` (and the reverse order) succeeds and leaves the
entire series exactly as it was, for scalar records (`reclen = 1`) and
array records alike. -/
theorem claim_C6_mode_switch_preserves_series :
    (∀ (s : IOState) (v : List (List FloatV)),
      s.ramflag = true → s.diskflag = false → s.array = some v →
      v.length = s.nsteps → (∀ r ∈ v, r.length = s.reclen) →
      ∃ t, Except.bind (ram2disk s) disk2ram = Except.ok t ∧
        getseries t = getseries s)
  ∧ (∀ (s : IOState) (f : List FloatV),
      s.diskflag = true → s.ramflag = false → s.intfile = some f →
      f.length = s.nsteps * s.reclen →
      ∃ t, Except.bind (disk2ram s) ram2disk = Except.ok t ∧
        getseries t = getseries s) := by
  constructor
  · intro s v hr hd ha hl hrec
    obtain ⟨rf, df, ar, fl, T, R⟩ := s
    simp only at hr hd ha hl hrec
    subst hr; subst hd; subst ha
    refine ⟨_, rfl, ?_⟩
    simp [getseries, deactivate_ram, deactivate_disk, delseries,
      chunk_flatten T R v hl hrec]
  · intro s f hd hr hi hflen
    obtain ⟨rf, df, ar, fl, T, R⟩ := s
    simp only at hd hr hi hflen
    subst hd; subst hr; subst hi
    refine ⟨_, rfl, ?_⟩
    simp [getseries, deactivate_ram, deactivate_disk, delseries,
      flatten_chunk T R f hflen]

/-- Witness for claim C6: a two-step run of a 1-dimensional sequence with
two-element records, in both switching orders. -/
theorem claim_C6_mode_switch_preserves_series_witness :
    (∃ t, Except.bind (ram2disk
        { ramflag := true, diskflag := false,
          array := some [[FloatV.val 1, FloatV.val 2],
                         [FloatV.nan, FloatV.val 3]],
          intfile := none, nsteps := 2, reclen := 2 }) disk2ram =
        Except.ok t ∧
      getseries t = getseries
        { ramflag := true, diskflag := false,
          array := some [[FloatV.val 1, FloatV.val 2],
                         [FloatV.nan, FloatV.val 3]],
          intfile := none, nsteps := 2, reclen := 2 })
  ∧ (∃ t, Except.bind (disk2ram
        { ramflag := false, diskflag := true, array := none,
          intfile := some [FloatV.val 4, FloatV.val 5, FloatV.val 6,
                           FloatV.val 7],
          nsteps := 2, reclen := 2 }) ram2disk = Except.ok t ∧
      getseries t = getseries
        { ramflag := false, diskflag := true, array := none,
          intfile := some [FloatV.val 4, FloatV.val 5, FloatV.val 6,
                           FloatV.val 7],
          nsteps := 2, reclen := 2 }) :=
  ⟨claim_C6_mode_switch_preserves_series.1 _
      [[FloatV.val 1, FloatV.val 2], [FloatV.nan, FloatV.val 3]]
      rfl rfl rfl rfl (by decide),
   claim_C6_mode_switch_preserves_series.2 _
      [FloatV.val 4, FloatV.val 5, FloatV.val 6, FloatV.val 7]
      rfl rfl rfl rfl⟩

/-- Claim C7: once the shape of a state sequence is established
(`state_setshape` allocates the `new` array and a separate copy for `old`),
mutating the `new` slot after `new2old` — by an in-place element write or by
a full re-assignment — leaves the `old` slot untouched; the scalar case is
a plain value copy with the same isolation. -/
theorem claim_C7_new2old_value_isolation :
    (∀ (st : StateMem) (n : Nat) (iv : FloatV) (i : Nat) (x : FloatV),
      (mutateNewItem (new2old (state_setshape n iv st)) i x).readOld =
        (new2old (state_setshape n iv st)).readOld)
  ∧ (∀ (st : StateMem) (n : Nat) (iv : FloatV) (v : List FloatV),
      (setNewFull (new2old (state_setshape n iv st)) v).readOld =
        (new2old (state_setshape n iv st)).readOld)
  ∧ (∀ (s : StateMem0) (v : FloatV),
      (setNew0 (new2old0 s) v).oldval = (new2old0 s).oldval) := by
  refine ⟨?_, ?_, fun s v => rfl⟩
  · intro st n iv i x
    simp only [StateMem.readOld, mutateNewItem, new2old, state_setshape]
    exact getD_set_ne _ _ _ _ _ (by simp)
  · intro st n iv v
    simp only [StateMem.readOld, setNewFull, new2old, state_setshape]
    exact getD_append_lt _ _ _ _ (by simp)

/-- Claim C8: when the backing external file cannot be read during mode
activation, the observation sequence `Obs` resets the freshly set flag to
inactive and emits a warning exactly when the corresponding global warn
option is enabled, letting no exception escape (for both `activate_ram`
and `activate_disk`); an `InputSequence` in the same situation lets the
`IOError` propagate as a fatal error; `Sim` carries the same catch but
never reads an external file during activation (`use_ext` is false), so
its activation succeeds regardless. -/
theorem claim_C8_missing_file_policy :
    (∀ (warnOpt : Bool) (extData : List FloatV) (s : NodeSeq),
      (obs_activate_ram warnOpt false extData s).1.ramflag = false ∧
      (obs_activate_ram warnOpt false extData s).1.diskflag = false ∧
      (obs_activate_ram warnOpt false extData s).2.1 = warnOpt ∧
      (obs_activate_ram warnOpt false extData s).2.2 = none)
  ∧ (∀ (warnOpt : Bool) (extData : List FloatV) (s : NodeSeq),
      (obs_activate_disk warnOpt false extData s).1.diskflag = false ∧
      (obs_activate_disk warnOpt false extData s).1.ramflag = false ∧
      (obs_activate_disk warnOpt false extData s).2.1 = warnOpt ∧
      (obs_activate_disk warnOpt false extData s).2.2 = none)
  ∧ (∀ (extData : List FloatV) (s : NodeSeq),
      (input_activate_ram false extData s).2 = some PyExc.ioError)
  ∧ (∀ (warnOpt extOk : Bool) (zeroData : List FloatV) (s : NodeSeq),
      (sim_activate_ram warnOpt extOk zeroData s).1.ramflag = true ∧
      (sim_activate_ram warnOpt extOk zeroData s).2.1 = false ∧
      (sim_activate_ram warnOpt extOk zeroData s).2.2 = none) :=
  ⟨fun _ _ _ => ⟨rfl, rfl, rfl, rfl⟩, fun _ _ _ => ⟨rfl, rfl, rfl, rfl⟩,
   fun _ _ => rfl, fun _ _ _ _ => ⟨rfl, rfl, rfl⟩⟩

theorem clampIdx_eq (L i : Int) (hL : 0 ≤ L) :
    clampIdx L i = max 0 (min i L) := by
  unfold clampIdx; split_ifs <;> omega

theorem writeAt_replicate_length (N z : Nat) (a : FloatV) (B : List FloatV)
    (h : z + B.length ≤ N ∨ B = []) :
    (writeAt (List.replicate N a) z B).length = N := by
  rcases h with h | h
  · simp [writeAt, List.length_take, List.length_drop]; omega
  · subst h; simp [writeAt, List.length_take, List.length_drop]; omega

theorem writeAt_replicate_getD (N z : Nat) (a X : FloatV) (B : List FloatV)
    (k : Nat) (h : z + B.length ≤ N ∨ B = []) (hk : k < N) :
    (writeAt (List.replicate N a) z B).getD k X =
      if z ≤ k ∧ k < z + B.length then B.getD (k - z) X else a := by
  rcases h with h | h
  · have hz : z ≤ N := by omega
    rw [writeAt, List.take_replicate, Nat.min_eq_left hz, List.drop_replicate,
      List.append_assoc]
    rcases Nat.lt_or_ge k z with hlt | hge
    · rw [getD_append_lt _ _ _ _ (by simpa using hlt),
        getD_replicate_lt _ _ _ _ hlt, if_neg (by omega)]
    · rw [getD_append_ge _ _ _ _ (by simpa using hge), List.length_replicate]
      rcases Nat.lt_or_ge k (z + B.length) with hin | hout
      · rw [getD_append_lt _ _ _ _ (by omega), if_pos ⟨hge, hin⟩]
      · rw [getD_append_ge _ _ _ _ (by omega),
          getD_replicate_lt _ _ _ _ (by omega), if_neg (by omega)]
  · subst h
    simp only [writeAt, List.length_nil, Nat.add_zero, List.append_nil,
      List.take_append_drop]
    rw [getD_replicate_lt _ _ _ _ hk, if_neg (by omega)]

/-- Claim C3: for the five-day simulation grid starting 2000-01-10, an
all-ones external series on 2000-01-12..2000-01-15 is aligned to
`[nan, nan, 1, 1, 1]` (to `[0, 0, 1, 1, 1]` with `usedefaultvalues`), an
all-ones external series on 2000-01-10..2000-01-13 to `[1, 1, 1, nan, nan]`;
and in general `adjust_short_series` returns a series of the simulation's
full length whose position `k` carries the external value at the matching
grid position when that position exists and the sentinel `initvalue`
otherwise. -/
theorem claim_C3_adjust_short_series_alignment :
    (adjust_short_series tgInit5 false none
        { firstdate := 12, lastdate := 15, stepsize := 1 }
        (List.replicate 3 (FloatV.val 1)) =
      [FloatV.nan, FloatV.nan, FloatV.val 1, FloatV.val 1, FloatV.val 1])
  ∧ (adjust_short_series tgInit5 true none
        { firstdate := 12, lastdate := 15, stepsize := 1 }
        (List.replicate 3 (FloatV.val 1)) =
      [FloatV.val 0, FloatV.val 0, FloatV.val 1, FloatV.val 1, FloatV.val 1])
  ∧ (adjust_short_series tgInit5 false none
        { firstdate := 10, lastdate := 13, stepsize := 1 }
        (List.replicate 3 (FloatV.val 1)) =
      [FloatV.val 1, FloatV.val 1, FloatV.val 1, FloatV.nan, FloatV.nan])
  ∧ (∀ (init tg : Timegrid) (ud : Bool) (INIT : Option FloatV)
      (values : List FloatV) (d : Int) (N : Nat),
      tg.dateindex init.firstdate = d →
      tg.dateindex init.lastdate = d + N →
      init.steps = N →
      (adjust_short_series init ud INIT tg values).length = N ∧
      ∀ k : Nat, k < N →
        (adjust_short_series init ud INIT tg values).getD k FloatV.nan =
          if 0 ≤ d + (k : Int) ∧ d + (k : Int) < (values.length : Int)
          then values.getD (d + (k : Int)).toNat FloatV.nan
          else initvalue ud INIT) := by
  refine ⟨by decide, by decide, by decide, ?_⟩
  intro init tg ud INIT values d N h0 h1 h2
  have hL : (0 : Int) ≤ (values.length : Int) := Int.ofNat_nonneg _
  have hclamp : ∀ i : Int, clampIdx (values.length : Int) i =
      max 0 (min i (values.length : Int)) := fun i => clampIdx_eq _ i hL
  simp only [adjust_short_series, h0, h1, h2, hclamp]
  set z : Nat := (max (-d) 0).toNat with hz
  set j0 : Int := max 0 (min d (values.length : Int)) with hj0
  set j1 : Int := max 0 (min (d + N) (values.length : Int)) with hj1
  set B : List FloatV := (values.drop j0.toNat).take (j1 - j0).toNat with hB
  have hm : B.length = (j1 - j0).toNat := by
    rw [hB, List.length_take, List.length_drop]; omega
  have hdisj : z + B.length ≤ N ∨ B = [] := by
    rcases le_or_lt (0 : Int) (d + N) with hc | hc
    · left; rw [hm]; omega
    · right
      exact List.eq_nil_of_length_eq_zero (by rw [hm]; omega)
  constructor
  · exact writeAt_replicate_length N z _ B hdisj
  · intro k hk
    rw [writeAt_replicate_getD N z _ FloatV.nan B k hdisj hk]
    have hwin : (z ≤ k ∧ k < z + B.length) ↔
        (0 ≤ d + (k : Int) ∧ d + (k : Int) < (values.length : Int)) := by
      rw [hm]; omega
    by_cases hw : 0 ≤ d + (k : Int) ∧ d + (k : Int) < (values.length : Int)
    · have hwz := hwin.mpr hw
      rw [if_pos hwz, if_pos hw, hB, getD_take, getD_drop,
        if_pos (by rw [hm] at hwz; omega)]
      have hidx : j0.toNat + (k - z) = (d + (k : Int)).toNat := by omega
      rw [hidx]
    · rw [if_neg (fun hc => hw (hwin.mp hc)), if_neg hw]

/-- Witness for claim C3's general clause, at the head-misaligned doctest
grids and position 4. -/
theorem claim_C3_adjust_short_series_alignment_witness :
    (adjust_short_series tgInit5 false none
        { firstdate := 12, lastdate := 15, stepsize := 1 }
        (List.replicate 3 (FloatV.val 1))).length = 5 ∧
    (adjust_short_series tgInit5 false none
        { firstdate := 12, lastdate := 15, stepsize := 1 }
        (List.replicate 3 (FloatV.val 1))).getD 4 FloatV.nan =
      FloatV.val 1 := by
  have h := claim_C3_adjust_short_series_alignment.2.2.2 tgInit5
    { firstdate := 12, lastdate := 15, stepsize := 1 } false none
    (List.replicate 3 (FloatV.val 1)) (-2) 5 (by decide) (by decide)
    (by decide)
  refine ⟨h.1, ?_⟩
  have h4 := h.2 4 (by decide)
  rw [if_pos (by decide)] at h4
  rw [h4]
  decide
